import Mathlib

/-!
Verification of the change-detection and dispatch engine of the
discord-plex-announcer repository.

The embedding covers, faithfully to the Python sources:
  * plex_announcer/utils/formatting.py and the legacy copy in
    plex_discord_bot.py (format_duration);
  * plex_announcer/core/plex_monitor.py (connect, cutoff selection and the
    descending walk of get_recently_added_movies / _episodes);
  * the legacy module plex_discord_bot.py (PlexMonitor.connect, the movie
    dispatch loop and the TV-episode grouping/flush path of
    check_for_new_media, together with its durable writes; the uncaught
    TypeError raised by its datetime-vs-date air-date comparisons at lines
    447 and 532-534 is modeled as an abort flag carrying the state reached
    at the crash);
  * plex_announcer/core/discord_bot.py (PlexDiscordBot._check_for_new_media:
    reconnect gate, channel resolution, discovery with the processed_media
    guard, episode classification, the dispatch loop and the last-check-time
    checkpoint).

Timestamps are integer seconds.  Python floor division and modulo by a
positive constant coincide with Int.ediv and Int.emod, which `/` and `%`
denote on Int below, so the arithmetic is faithful for negative values too.
Presentation-only metadata (summaries, posters, ratings, genres and the
like) is carried opaquely by the Python code and never branched on; it is
omitted from the records here.  Network effects (the plexapi search, the
Discord send) are represented by explicit oracle parameters recording
whether each call succeeds, and durable file writes are recorded as an
explicit event trace.
-/

set_option autoImplicit false

namespace PlexAnnouncer

/-- One movie entry as assembled by the monitor from a plexapi Movie. -/
structure Movie where
  key : String
  title : String
  addedAt : Int
deriving Repr, DecidableEq

/-- One episode entry as assembled by the monitor from a plexapi Episode.
season_number / episode_number mirror parentIndex / index, airDate mirrors
the optional originallyAvailableAt. -/
structure Episode where
  key : String
  showTitle : String
  seasonNumber : Int
  episodeNumber : Int
  airDate : Option Int
  addedAt : Int
deriving Repr, DecidableEq

/-! ## Duration formatting (C10)

plex_announcer/utils/formatting.py and the identical legacy copy at
plex_discord_bot.py lines 326-331. -/

/-- format_duration from plex_announcer/utils/formatting.py. -/
def format_duration (milliseconds : Int) : String :=
  let total_seconds : Int := milliseconds / 1000
  let hours : Int := total_seconds / 3600
  let minutes : Int := (total_seconds % 3600) / 60
  toString hours ++ "h " ++ toString minutes ++ "m"

/-- format_duration from plex_discord_bot.py (the legacy module). -/
def format_duration_legacy (milliseconds : Int) : String :=
  let total_seconds : Int := milliseconds / 1000
  let hours : Int := total_seconds / 3600
  let minutes : Int := (total_seconds % 3600) / 60
  toString hours ++ "h " ++ toString minutes ++ "m"

/-! ## Change detector (plex_announcer/core/plex_monitor.py) -/

/-- Cutoff selection shared by get_recently_added_movies and
get_recently_added_episodes: the caller-supplied since_datetime when
present, otherwise now minus the lookback window in days. -/
def computeCutoff (sinceDatetime : Option Int) (now : Int) (days : Int) : Int :=
  match sinceDatetime with
  | some t => t
  | none => now - days * 86400

/-- The for/break walk over the addedAt-descending movie search result:
keep movies strictly newer than the cutoff, stop at the first that is not. -/
def takeNewerMovies (cutoff : Int) : List Movie → List Movie
  | [] => []
  | m :: rest =>
    if cutoff < m.addedAt then m :: takeNewerMovies cutoff rest else []

/-- The same walk for episodes in get_recently_added_episodes. -/
def takeNewerEpisodes (cutoff : Int) : List Episode → List Episode
  | [] => []
  | e :: rest =>
    if cutoff < e.addedAt then e :: takeNewerEpisodes cutoff rest else []

/-- Observable state of the PlexMonitor collaborator during one scan:
whether self.plex is set, whether a connect() call would succeed, whether
the library search calls succeed (a missing library or a connection error
during search both make the monitor return an empty list), and the
addedAt-descending lists the searches would return. -/
structure CoreMonitor where
  connected : Bool
  reconnectOk : Bool
  movieSearchOk : Bool
  episodeSearchOk : Bool
  movies : List Movie
  episodes : List Episode
deriving Repr

/-- PlexMonitor.get_recently_added_movies: empty when not connected or when
the library lookup / search fails, otherwise the descending walk above the
computed cutoff. -/
def getRecentlyAddedMovies (mon : CoreMonitor) (sinceDatetime : Option Int)
    (days : Int) (now : Int) : List Movie :=
  if mon.connected then
    if mon.movieSearchOk then
      takeNewerMovies (computeCutoff sinceDatetime now days) mon.movies
    else []
  else []

/-- PlexMonitor.get_recently_added_episodes, same shape. -/
def getRecentlyAddedEpisodes (mon : CoreMonitor) (sinceDatetime : Option Int)
    (days : Int) (now : Int) : List Episode :=
  if mon.connected then
    if mon.episodeSearchOk then
      takeNewerEpisodes (computeCutoff sinceDatetime now days) mon.episodes
    else []
  else []

/-! ## Connection with retry (C9)

Both PlexMonitor.connect implementations, driven by an oracle giving the
outcome of the n-th PlexServer construction attempt. -/

/-- Outcome of one PlexServer construction attempt. -/
inductive ConnectOutcome
  | success
  | unauthorized
  | transientError
  | otherError
deriving Repr, DecidableEq

/-- Result of a connect call: the returned Bool, the number of PlexServer
construction attempts that were made, and the sleeps (in seconds) that were
performed between attempts, in order. -/
structure ConnectResult where
  ok : Bool
  attempts : Nat
  waits : List Nat
deriving Repr, DecidableEq

/-- Loop body of the packaged PlexMonitor.connect
(plex_announcer/core/plex_monitor.py lines 40-70): for attempt in
range(connect_retry), Unauthorized returns False at once, any other
exception sleeps a fixed 5 seconds unless this was the last attempt.  The
fuel argument is the number of loop iterations left. -/
def pmConnectAux (outcome : Nat → ConnectOutcome) :
    Nat → Nat → List Nat → ConnectResult
  | 0, calls, waits => ⟨false, calls, waits⟩
  | fuel + 1, calls, waits =>
    match outcome calls with
    | .success => ⟨true, calls + 1, waits⟩
    | .unauthorized => ⟨false, calls + 1, waits⟩
    | _ =>
      if 0 < fuel then
        pmConnectAux outcome fuel (calls + 1) (waits ++ [5])
      else ⟨false, calls + 1, waits⟩

/-- Packaged PlexMonitor.connect with retry count connect_retry
(constructor default 3). -/
def pmConnect (outcome : Nat → ConnectOutcome) (connect_retry : Nat) :
    ConnectResult :=
  pmConnectAux outcome connect_retry 0 []

/-- Loop body of the legacy PlexMonitor.connect (plex_discord_bot.py lines
81-108): while retry_count < max_retries, Unauthorized and generic
exceptions return False at once; ConnectionError/TimeoutError increments
retry_count and sleeps 2 ** retry_count seconds when retries remain. -/
def legacyConnectAux (outcome : Nat → ConnectOutcome) :
    Nat → Nat → List Nat → ConnectResult
  | 0, calls, waits => ⟨false, calls, waits⟩
  | fuel + 1, calls, waits =>
    match outcome calls with
    | .success => ⟨true, calls + 1, waits⟩
    | .unauthorized => ⟨false, calls + 1, waits⟩
    | .otherError => ⟨false, calls + 1, waits⟩
    | .transientError =>
      if 0 < fuel then
        legacyConnectAux outcome fuel (calls + 1) (waits ++ [2 ^ (calls + 1)])
      else ⟨false, calls + 1, waits⟩

/-- Legacy PlexMonitor.connect with PLEX_CONNECT_RETRY (default 3). -/
def legacyConnect (outcome : Nat → ConnectOutcome) (max_retries : Nat) :
    ConnectResult :=
  legacyConnectAux outcome max_retries 0 []

/-! ## The packaged scan: PlexDiscordBot._check_for_new_media
(plex_announcer/core/discord_bot.py lines 452-583) -/

/-- The three channel variables used by _check_for_new_media
(movie_channel, new_shows_channel, recent_episodes_channel). -/
inductive ChanTag
  | movieCh
  | newShowsCh
  | recentCh
deriving Repr, DecidableEq

/-- Kind discriminator mirroring the item dicts' type field. -/
inductive ItemKind
  | movie
  | episode
deriving Repr, DecidableEq

/-- One entry of the new_items list: the item key, its kind, and the
target channel variable stored with it. -/
structure NotifItem where
  key : String
  kind : ItemKind
  target : ChanTag
deriving Repr, DecidableEq

/-- Configuration flags of PlexDiscordBot (constructor defaults: all three
flags true, recent_episode_days = 30). -/
structure CoreConfig where
  notifyMovies : Bool
  notifyNewShows : Bool
  notifyRecentEpisodes : Bool
  recentEpisodeDays : Int
deriving Repr, DecidableEq

/-- recently_aired of _check_for_new_media lines 525-533:
(datetime.now() - air_date).days <= recent_episode_days, false when the air
date is absent.  timedelta.days floors, which on integer seconds is ediv by
86400. -/
def recentlyAired (cfg : CoreConfig) (now : Int) (ep : Episode) : Bool :=
  match ep.airDate with
  | some a => decide ((now - a) / 86400 ≤ cfg.recentEpisodeDays)
  | none => false

/-- Lines 519-547 of _check_for_new_media for one candidate episode: the
should_add flag and target_channel, as the optional channel variable the
episode is appended with.  is_first_episode is season == 1 and
episode == 1; the new-shows branch is tested before the recently-aired
branch. -/
def episodeDecision (cfg : CoreConfig) (now : Int) (ep : Episode) :
    Option ChanTag :=
  let isFirstEpisode := ep.seasonNumber == 1 && ep.episodeNumber == 1
  if cfg.notifyNewShows && isFirstEpisode then some ChanTag.newShowsCh
  else if cfg.notifyRecentEpisodes && recentlyAired cfg now ep then
    some ChanTag.recentCh
  else none

/-- Movie discovery loop (lines 506-509): keys already in processed_media
are skipped; a fresh key is appended to new_items with the movie channel
and added to processed_media. -/
def discoverMovies (processed : List String) :
    List Movie → List String × List NotifItem
  | [] => (processed, [])
  | m :: rest =>
    if m.key ∈ processed then discoverMovies processed rest
    else
      let r := discoverMovies (m.key :: processed) rest
      (r.1, ⟨m.key, ItemKind.movie, ChanTag.movieCh⟩ :: r.2)

/-- Episode discovery loop (lines 517-553): keys already in
processed_media are skipped; otherwise the episode is appended to
new_items exactly when episodeDecision fires, and its key is added to
processed_media regardless. -/
def discoverEpisodes (cfg : CoreConfig) (now : Int) (processed : List String) :
    List Episode → List String × List NotifItem
  | [] => (processed, [])
  | e :: rest =>
    if e.key ∈ processed then discoverEpisodes cfg now processed rest
    else
      match episodeDecision cfg now e with
      | some tag =>
        let r := discoverEpisodes cfg now (e.key :: processed) rest
        (r.1, ⟨e.key, ItemKind.episode, tag⟩ :: r.2)
      | none => discoverEpisodes cfg now (e.key :: processed) rest

/-- Dispatch loop of lines 556-565.  Each send resolves the stored channel
variable and awaits channel.send; a None channel or a raising send is an
uncaught exception, which ends the loop (and, in the caller, skips the
checkpoint write).  Returns the successfully sent prefix and whether the
loop ran to completion. -/
def dispatchLoop (resolve : ChanTag → Bool) (sendOk : String → Bool) :
    List NotifItem → List NotifItem × Bool
  | [] => ([], true)
  | it :: rest =>
    if resolve it.target && sendOk it.key then
      let r := dispatchLoop resolve sendOk rest
      (it :: r.1, r.2)
    else ([], false)

/-- How one scan invocation ended. -/
inductive ScanOutcome
  | notConnected
  | movieChannelMissing
  | dispatchError
  | completed
deriving Repr, DecidableEq

/-- Scan-relevant state of PlexDiscordBot: the persisted last_check_time
and the in-memory processed_media set. -/
structure CoreScanState where
  lastCheckTime : Option Int
  processed : List String
deriving Repr, DecidableEq

/-- Result of one _check_for_new_media invocation. -/
structure CoreScanResult where
  state : CoreScanState
  sent : List NotifItem
  outcome : ScanOutcome
deriving Repr, DecidableEq

/-- Discovery phase of _check_for_new_media (lines 499-553): the movie
loop then the episode loop, each gated on its flags, sharing
processed_media.  Returns the updated processed set and the new_items
list in append order. -/
def scanDiscover (cfg : CoreConfig) (mon2 : CoreMonitor) (now : Int)
    (st : CoreScanState) : List String × List NotifItem :=
  let d1 :=
    if cfg.notifyMovies then
      discoverMovies st.processed
        (getRecentlyAddedMovies mon2 st.lastCheckTime 1 now)
    else (st.processed, [])
  let d2 :=
    if cfg.notifyNewShows || cfg.notifyRecentEpisodes then
      discoverEpisodes cfg now d1.1
        (getRecentlyAddedEpisodes mon2 st.lastCheckTime 1 now)
    else (d1.1, [])
  (d2.1, d1.2 ++ d2.2)

/-- PlexDiscordBot._check_for_new_media.  resolve models bot.get_channel
on the three configured channel ids (the movie channel is checked up
front; the scan returns at once when it is missing); sendOk models whether
channel.send succeeds for a given item key.  last_check_time is saved only
when the dispatch loop runs to completion; processed_media mutations are
kept in either case. -/
def coreCheckForNewMedia (cfg : CoreConfig) (mon : CoreMonitor)
    (resolve : ChanTag → Bool) (sendOk : String → Bool) (now : Int)
    (st : CoreScanState) : CoreScanResult :=
  let mon2 := if mon.connected then mon
              else { mon with connected := mon.reconnectOk }
  if mon2.connected then
    if resolve ChanTag.movieCh then
      let d := scanDiscover cfg mon2 now st
      let dl := dispatchLoop resolve sendOk d.2
      if dl.2 then ⟨⟨some now, d.1⟩, dl.1, ScanOutcome.completed⟩
      else ⟨⟨st.lastCheckTime, d.1⟩, dl.1, ScanOutcome.dispatchError⟩
    else ⟨st, [], ScanOutcome.movieChannelMissing⟩
  else ⟨st, [], ScanOutcome.notConnected⟩

/-- Keys of a notification item list. -/
def keysOf (items : List NotifItem) : List String :=
  items.map NotifItem.key

/-! ## The legacy scan: check_for_new_media (plex_discord_bot.py)

The movie loop (lines 374-428) and the TV grouping path (lines 430-604),
with the durable file writes (save_processed_movies, save_tv_buffer)
recorded as an event trace in program order. -/

/-- One durable write or dispatch attempt performed by the legacy scan, in
program order. -/
inductive LegacyEvent
  | saveBuffer (buf : List (String × List Episode))
  | dispatched (s : String) (eps : List Episode) (ok : Bool)
  | saveProcessed (keys : List String)
deriving Repr, DecidableEq

/-- Contents of the durable processed-media file after a prefix of the
event trace has executed, starting from its on-disk contents before the
scan (last write wins). -/
def durableProcessedAfter (init : List String) : List LegacyEvent → List String
  | [] => init
  | LegacyEvent.saveProcessed ks :: rest => durableProcessedAfter ks rest
  | _ :: rest => durableProcessedAfter init rest

/-- One tv_buffer entry: the buffered episodes in append order, the
last_updated timestamp and the is_first_show flag set when the entry was
created. -/
structure BufEntry where
  episodes : List Episode
  lastUpdated : Int
  isFirstShow : Bool
deriving Repr, DecidableEq

/-- Lines 469-482: append the episode to the show's existing buffer entry
(updating last_updated), or create a new entry at the end of the dict. -/
def bufferAdd (e : Episode) (now : Int) (isFirst : Bool) :
    List (String × BufEntry) → List (String × BufEntry)
  | [] => [(e.showTitle, ⟨[e], now, isFirst⟩)]
  | (k, entry) :: rest =>
    if k = e.showTitle then
      (k, { entry with episodes := entry.episodes ++ [e], lastUpdated := now })
        :: rest
    else (k, entry) :: bufferAdd e now isFirst rest

/-- Result of the legacy episode discovery loop (lines 438-485).  raised
records that the loop aborted with the uncaught TypeError of line 447:
for a fresh episode whose air_date is present, the code orders a datetime
(plexapi originallyAvailableAt, stored unconverted at lines 206-208)
against thirty_days_ago.date(), a date, which Python refuses; the
comparison sits outside every try/except, so the whole scan stops there
and the fields hold the in-memory state accumulated up to the crash. -/
structure LegacyDiscoverResult where
  processed : List String
  buffer : List (String × BufEntry)
  shows : List String
  raised : Bool
deriving Repr, DecidableEq

/-- Episode loop of lines 438-485.  Keys already in processed_movies are
skipped before the air-date test; a fresh episode with an air date raises
at line 447 (see LegacyDiscoverResult), so on the surviving path
is_recent_episode is always False and eligibility reduces to the
is_first_episode_of_show query, which receives the processed set as it
stands at that moment; every surviving fresh key is added to
processed_movies regardless. -/
def legacyDiscover (isFirstShow : String → List String → Bool) (now : Int) :
    List Episode → List String → List (String × BufEntry) → List String →
    LegacyDiscoverResult
  | [], processed, buffer, shows => ⟨processed, buffer, shows, false⟩
  | e :: rest, processed, buffer, shows =>
    if e.key ∈ processed then
      legacyDiscover isFirstShow now rest processed buffer shows
    else
      match e.airDate with
      | some _ => ⟨processed, buffer, shows, true⟩
      | none =>
        let isFirst := isFirstShow e.showTitle processed
        if isFirst then
          legacyDiscover isFirstShow now rest (e.key :: processed)
            (bufferAdd e now isFirst buffer)
            (if e.showTitle ∈ shows then shows else e.showTitle :: shows)
        else
          legacyDiscover isFirstShow now rest (e.key :: processed) buffer shows

/-- Lines 491-501: a buffered show is flushed when the buffer window has
elapsed since its last update or when this run buffered an episode for it;
the list keeps dict insertion order. -/
def showsToSend (now bufferTime : Int) (shows : List String)
    (buffer : List (String × BufEntry)) : List String :=
  (buffer.filter fun p =>
    decide (bufferTime ≤ now - p.2.lastUpdated) || p.1 ∈ shows).map (·.1)

/-- Association-list lookup for the buffer dict. -/
def lookupBuf (buffer : List (String × BufEntry)) (s : String) :
    Option BufEntry :=
  match buffer.find? (fun p => p.1 = s) with
  | some p => some p.2
  | none => none

/-- Deletion from the buffer dict (del tv_buffer[show_title]). -/
def removeBuf (buffer : List (String × BufEntry)) (s : String) :
    List (String × BufEntry) :=
  buffer.filter fun p => p.1 ≠ s

/-- Result of the flush loop: the final buffer, the dispatch events in
order, and whether the loop aborted with the TypeError of lines 532-534 —
building the embed's episode list performs the same datetime-vs-date
comparison for every buffered episode that has an air date, before
channel.send is ever reached. -/
structure LegacyFlushResult where
  buffer : List (String × BufEntry)
  events : List LegacyEvent
  raised : Bool
deriving Repr, DecidableEq

/-- Flush loop of lines 504-599: each selected show with a non-empty
episode list has its embed built — raising at the first buffered episode
with an air date, which aborts the scan — and is then sent as one embed
listing its buffered episodes in buffer order; channel.send is inside
try/except, so a failing send is logged and the entry kept, while a
successful send deletes the entry. -/
def legacyFlush (sendOk : String → Bool) :
    List String → List (String × BufEntry) → LegacyFlushResult
  | [], buffer => ⟨buffer, [], false⟩
  | s :: rest, buffer =>
    match lookupBuf buffer s with
    | none => legacyFlush sendOk rest buffer
    | some entry =>
      if entry.episodes = [] then legacyFlush sendOk rest buffer
      else if entry.episodes.any fun e => e.airDate.isSome then
        ⟨buffer, [], true⟩
      else if sendOk s then
        let r := legacyFlush sendOk rest (removeBuf buffer s)
        ⟨r.buffer, LegacyEvent.dispatched s entry.episodes true :: r.events,
          r.raised⟩
      else
        let r := legacyFlush sendOk rest buffer
        ⟨r.buffer, LegacyEvent.dispatched s entry.episodes false :: r.events,
          r.raised⟩

/-- Buffer snapshot as written by save_tv_buffer (episode lists per show,
in dict order). -/
def bufferSnapshot (buffer : List (String × BufEntry)) :
    List (String × List Episode) :=
  buffer.map fun p => (p.1, p.2.episodes)

/-- Result of the legacy TV path; raised records that the scan aborted
with one of the TypeErrors above. -/
structure LegacyTVResult where
  processed : List String
  buffer : List (String × BufEntry)
  trace : List LegacyEvent
  raised : Bool
deriving Repr, DecidableEq

/-- The NOTIFY_TV block of legacy check_for_new_media (lines 430-604):
discover and buffer episodes — a TypeError there aborts the scan before
any durable write of this path — then save_tv_buffer, flush the selected
shows — a TypeError there aborts after the dispatches already made — then
save_tv_buffer again and finally save_processed_movies, the single
durable write of the processed set on this path, executed only when the
scan completes and then regardless of per-show send outcomes. -/
def legacyCheckTV (isFirstShow : String → List String → Bool)
    (sendOk : String → Bool) (now bufferTime : Int)
    (processed0 : List String) (buffer0 : List (String × BufEntry))
    (episodes : List Episode) : LegacyTVResult :=
  let d := legacyDiscover isFirstShow now episodes processed0 buffer0 []
  if d.raised then ⟨d.processed, d.buffer, [], true⟩
  else
    let toSend := showsToSend now bufferTime d.shows d.buffer
    let f := legacyFlush sendOk toSend d.buffer
    if f.raised then
      ⟨d.processed, f.buffer,
        LegacyEvent.saveBuffer (bufferSnapshot d.buffer) :: f.events, true⟩
    else
      ⟨d.processed, f.buffer,
        (LegacyEvent.saveBuffer (bufferSnapshot d.buffer) :: f.events
            ++ [LegacyEvent.saveBuffer (bufferSnapshot f.buffer)])
          ++ [LegacyEvent.saveProcessed d.processed], false⟩

/-- Extract the dispatch events of a trace. -/
def dispatchesOf : List LegacyEvent → List (String × List Episode × Bool)
  | [] => []
  | LegacyEvent.dispatched s eps ok :: rest => (s, eps, ok) :: dispatchesOf rest
  | _ :: rest => dispatchesOf rest

/-- Result of the legacy movie loop. -/
structure LegacyMovieResult where
  processed : List String
  sendCalls : List (String × Nat)
  sent : List String
  trace : List LegacyEvent
deriving Repr, DecidableEq

/-- Movie loop of lines 374-428, driven by an oracle giving the outcome of
the n-th send attempt for a key.  The code awaits channel.send exactly once
per fresh movie (attempt index 0); on success it adds the key to
processed_movies and immediately calls save_processed_movies, on a caught
exception it only logs and moves on.  sendCalls records every channel.send
call as (key, attempt index). -/
def legacyCheckMovies (sendOk : String → Nat → Bool) :
    List Movie → List String → LegacyMovieResult
  | [], processed => ⟨processed, [], [], []⟩
  | m :: rest, processed =>
    if m.key ∈ processed then legacyCheckMovies sendOk rest processed
    else if sendOk m.key 0 then
      let r := legacyCheckMovies sendOk rest (m.key :: processed)
      ⟨r.processed, (m.key, 0) :: r.sendCalls, m.key :: r.sent,
        LegacyEvent.saveProcessed (m.key :: processed) :: r.trace⟩
    else
      let r := legacyCheckMovies sendOk rest processed
      ⟨r.processed, (m.key, 0) :: r.sendCalls, r.sent, r.trace⟩

/-! ## Helper lemmas -/

/-- Sortedness by addedAt descending, as guaranteed by the
addedAt-desc sort parameter of the plexapi search calls. -/
def SortedDescMovies (ms : List Movie) : Prop :=
  List.Pairwise (fun a b => b.addedAt ≤ a.addedAt) ms

/-- Sortedness by addedAt descending for episodes. -/
def SortedDescEpisodes (es : List Episode) : Prop :=
  List.Pairwise (fun a b => b.addedAt ≤ a.addedAt) es

instance (ms : List Movie) : Decidable (SortedDescMovies ms) :=
  inferInstanceAs
    (Decidable (List.Pairwise (fun a b : Movie => b.addedAt ≤ a.addedAt) ms))

instance (es : List Episode) : Decidable (SortedDescEpisodes es) :=
  inferInstanceAs
    (Decidable (List.Pairwise (fun a b : Episode => b.addedAt ≤ a.addedAt) es))

theorem takeNewerMovies_eq_filter (cutoff : Int) (ms : List Movie)
    (hs : SortedDescMovies ms) :
    takeNewerMovies cutoff ms = ms.filter (fun m => cutoff < m.addedAt) := by
  induction ms with
  | nil => rfl
  | cons m rest ih =>
    rcases List.pairwise_cons.mp hs with ⟨hhead, htail⟩
    by_cases hm : cutoff < m.addedAt
    · simp [takeNewerMovies, hm, ih htail, List.filter_cons]
    · have hall : ∀ x ∈ rest, ¬ cutoff < x.addedAt := by
        intro x hx
        have := hhead x hx
        omega
      simp only [takeNewerMovies, if_neg hm, List.filter_cons]
      simp only [decide_eq_true_eq, hm, if_false]
      exact (List.filter_eq_nil_iff.mpr (by simpa using hall)).symm

theorem takeNewerEpisodes_eq_filter (cutoff : Int) (es : List Episode)
    (hs : SortedDescEpisodes es) :
    takeNewerEpisodes cutoff es = es.filter (fun e => cutoff < e.addedAt) := by
  induction es with
  | nil => rfl
  | cons e rest ih =>
    rcases List.pairwise_cons.mp hs with ⟨hhead, htail⟩
    by_cases he : cutoff < e.addedAt
    · simp [takeNewerEpisodes, he, ih htail, List.filter_cons]
    · have hall : ∀ x ∈ rest, ¬ cutoff < x.addedAt := by
        intro x hx
        have := hhead x hx
        omega
      simp only [takeNewerEpisodes, if_neg he, List.filter_cons]
      simp only [decide_eq_true_eq, he, if_false]
      exact (List.filter_eq_nil_iff.mpr (by simpa using hall)).symm

theorem legacyFlush_no_saveProcessed (sendOk : String → Bool) :
    ∀ (toSend : List String) (buffer : List (String × BufEntry))
      (ks : List String),
      LegacyEvent.saveProcessed ks ∉ (legacyFlush sendOk toSend buffer).events := by
  intro toSend
  induction toSend with
  | nil => intro buffer ks; simp [legacyFlush]
  | cons s rest ih =>
    intro buffer ks
    cases h : lookupBuf buffer s with
    | none => simpa [legacyFlush, h] using ih buffer ks
    | some entry =>
      by_cases he : entry.episodes = []
      · simpa [legacyFlush, h, he] using ih buffer ks
      · by_cases hair : (entry.episodes.any fun e => e.airDate.isSome) = true
        · simp [legacyFlush, h, he, hair]
        · by_cases hs : sendOk s = true
          · simpa [legacyFlush, h, he, hair, hs] using
              ih (removeBuf buffer s) ks
          · simpa [legacyFlush, h, he, hair, hs] using ih buffer ks

theorem durableProcessedAfter_no_write (init : List String) :
    ∀ tr : List LegacyEvent,
      (∀ ks : List String, LegacyEvent.saveProcessed ks ∉ tr) →
      durableProcessedAfter init tr = init := by
  intro tr
  induction tr with
  | nil => intro _; rfl
  | cons ev rest ih =>
    intro h
    cases ev with
    | saveBuffer b =>
      simp only [durableProcessedAfter]
      exact ih fun ks hm => h ks (List.mem_cons_of_mem _ hm)
    | dispatched s eps ok =>
      simp only [durableProcessedAfter]
      exact ih fun ks hm => h ks (List.mem_cons_of_mem _ hm)
    | saveProcessed ks =>
      exact absurd (List.mem_cons_self _ _) (h ks)

/-- The trace of a completing legacy TV scan consists of events that are
not processed-set writes, followed by one final write of the scan's
processed set. -/
theorem legacyCheckTV_trace (isFirstShow : String → List String → Bool)
    (sendOk : String → Bool) (now bufferTime : Int) (processed0 : List String)
    (buffer0 : List (String × BufEntry)) (episodes : List Episode)
    (hr : (legacyCheckTV isFirstShow sendOk now bufferTime processed0 buffer0
        episodes).raised = false) :
    ∃ pre : List LegacyEvent,
      (legacyCheckTV isFirstShow sendOk now bufferTime processed0 buffer0
          episodes).trace
        = pre ++ [LegacyEvent.saveProcessed
            (legacyCheckTV isFirstShow sendOk now bufferTime processed0 buffer0
              episodes).processed]
      ∧ ∀ ks : List String, LegacyEvent.saveProcessed ks ∉ pre := by
  by_cases hd : (legacyDiscover isFirstShow now episodes processed0 buffer0
      []).raised = true
  · simp [legacyCheckTV, hd] at hr
  · rw [Bool.not_eq_true] at hd
    by_cases hf : (legacyFlush sendOk
        (showsToSend now bufferTime
          (legacyDiscover isFirstShow now episodes processed0 buffer0 []).shows
          (legacyDiscover isFirstShow now episodes processed0 buffer0 []).buffer)
        (legacyDiscover isFirstShow now episodes processed0 buffer0
          []).buffer).raised = true
    · simp [legacyCheckTV, hd, hf] at hr
    · rw [Bool.not_eq_true] at hf
      simp only [legacyCheckTV, hd, hf, Bool.false_eq_true, if_false]
      refine ⟨_, rfl, ?_⟩
      intro ks hmem
      simp at hmem
      exact legacyFlush_no_saveProcessed sendOk _ _ ks hmem

/-- An aborted legacy TV scan never writes the processed set. -/
theorem legacyCheckTV_raised_no_write
    (isFirstShow : String → List String → Bool) (sendOk : String → Bool)
    (now bufferTime : Int) (processed0 : List String)
    (buffer0 : List (String × BufEntry)) (episodes : List Episode)
    (hr : (legacyCheckTV isFirstShow sendOk now bufferTime processed0 buffer0
        episodes).raised = true) :
    ∀ ks : List String,
      LegacyEvent.saveProcessed ks
        ∉ (legacyCheckTV isFirstShow sendOk now bufferTime processed0 buffer0
            episodes).trace := by
  intro ks
  by_cases hd : (legacyDiscover isFirstShow now episodes processed0 buffer0
      []).raised = true
  · simp [legacyCheckTV, hd]
  · rw [Bool.not_eq_true] at hd
    by_cases hf : (legacyFlush sendOk
        (showsToSend now bufferTime
          (legacyDiscover isFirstShow now episodes processed0 buffer0 []).shows
          (legacyDiscover isFirstShow now episodes processed0 buffer0 []).buffer)
        (legacyDiscover isFirstShow now episodes processed0 buffer0
          []).buffer).raised = true
    · simp [legacyCheckTV, hd, hf]
      exact legacyFlush_no_saveProcessed sendOk _ _ ks
    · rw [Bool.not_eq_true] at hf
      simp [legacyCheckTV, hd, hf] at hr

/-- The processed set of the legacy TV scan is the discovery loop's, on
every path. -/
theorem legacyCheckTV_processed (isFirstShow : String → List String → Bool)
    (sendOk : String → Bool) (now bufferTime : Int) (processed0 : List String)
    (buffer0 : List (String × BufEntry)) (episodes : List Episode) :
    (legacyCheckTV isFirstShow sendOk now bufferTime processed0 buffer0
        episodes).processed
      = (legacyDiscover isFirstShow now episodes processed0 buffer0
          []).processed := by
  simp only [legacyCheckTV]
  split
  · rfl
  · split
    · rfl
    · rfl

/-- A completing legacy TV scan completed its discovery loop. -/
theorem legacyCheckTV_discover_ok (isFirstShow : String → List String → Bool)
    (sendOk : String → Bool) (now bufferTime : Int) (processed0 : List String)
    (buffer0 : List (String × BufEntry)) (episodes : List Episode)
    (hr : (legacyCheckTV isFirstShow sendOk now bufferTime processed0 buffer0
        episodes).raised = false) :
    (legacyDiscover isFirstShow now episodes processed0 buffer0 []).raised
      = false := by
  by_contra hd
  rw [Bool.not_eq_false] at hd
  simp [legacyCheckTV, hd] at hr

theorem legacyDiscover_mono (isFirstShow : String → List String → Bool)
    (now : Int) (k : String) :
    ∀ (es : List Episode) (processed : List String)
      (buffer : List (String × BufEntry)) (shows : List String),
      k ∈ processed →
      k ∈ (legacyDiscover isFirstShow now es processed buffer shows).processed := by
  intro es
  induction es with
  | nil => intro processed buffer shows hk; simpa [legacyDiscover] using hk
  | cons e rest ih =>
    intro processed buffer shows hk
    by_cases he : e.key ∈ processed
    · simpa [legacyDiscover, he] using ih processed buffer shows hk
    · cases ha : e.airDate with
      | some a => simpa [legacyDiscover, he, ha] using hk
      | none =>
        by_cases hfirst : isFirstShow e.showTitle processed = true
        · simpa [legacyDiscover, he, ha, hfirst] using
            ih (e.key :: processed) _ _ (by simp [hk])
        · simpa [legacyDiscover, he, ha, hfirst] using
            ih (e.key :: processed) buffer shows (by simp [hk])

theorem legacyDiscover_covers (isFirstShow : String → List String → Bool)
    (now : Int) :
    ∀ (es : List Episode) (processed : List String)
      (buffer : List (String × BufEntry)) (shows : List String),
      (legacyDiscover isFirstShow now es processed buffer shows).raised
        = false →
      ∀ e ∈ es,
        e.key
          ∈ (legacyDiscover isFirstShow now es processed buffer shows).processed := by
  intro es
  induction es with
  | nil => intro _ _ _ _ e he; simp at he
  | cons a rest ih =>
    intro processed buffer shows hr e he
    rcases List.mem_cons.mp he with heq | hmem
    · subst heq
      by_cases ha : e.key ∈ processed
      · simpa [legacyDiscover, ha] using
          legacyDiscover_mono isFirstShow now e.key rest processed buffer
            shows ha
      · cases hd : e.airDate with
        | some x => simp [legacyDiscover, ha, hd] at hr
        | none =>
          by_cases hfirst : isFirstShow e.showTitle processed = true
          · simpa [legacyDiscover, ha, hd, hfirst] using
              legacyDiscover_mono isFirstShow now e.key rest
                (e.key :: processed) _ _ (by simp)
          · simpa [legacyDiscover, ha, hd, hfirst] using
              legacyDiscover_mono isFirstShow now e.key rest
                (e.key :: processed) buffer shows (by simp)
    · by_cases ha : a.key ∈ processed
      · simp only [legacyDiscover, if_pos ha] at hr ⊢
        exact ih processed buffer shows hr e hmem
      · cases hd : a.airDate with
        | some x => simp [legacyDiscover, ha, hd] at hr
        | none =>
          by_cases hfirst : isFirstShow a.showTitle processed = true
          · simp [legacyDiscover, ha, hd, hfirst] at hr ⊢
            exact ih _ _ _ hr e hmem
          · simp [legacyDiscover, ha, hd, hfirst] at hr ⊢
            exact ih _ _ _ hr e hmem

theorem discoverMovies_processed_mono (k : String) :
    ∀ (processed : List String) (ms : List Movie), k ∈ processed →
      k ∈ (discoverMovies processed ms).1 := by
  intro processed ms
  induction ms generalizing processed with
  | nil => intro hk; simpa [discoverMovies] using hk
  | cons m rest ih =>
    intro hk
    by_cases hm : m.key ∈ processed
    · simpa [discoverMovies, hm] using ih processed hk
    · simpa [discoverMovies, hm] using ih (m.key :: processed) (by simp [hk])

theorem discoverMovies_skips_processed (k : String) :
    ∀ (processed : List String) (ms : List Movie), k ∈ processed →
      k ∉ keysOf (discoverMovies processed ms).2 := by
  intro processed ms
  induction ms generalizing processed with
  | nil => intro hk; simp [discoverMovies, keysOf]
  | cons m rest ih =>
    intro hk
    by_cases hm : m.key ∈ processed
    · simpa [discoverMovies, hm] using ih processed hk
    · have hne : k ≠ m.key := fun h => hm (h ▸ hk)
      have htail := ih (m.key :: processed) (by simp [hk])
      simp only [discoverMovies, if_neg hm, keysOf, List.map_cons,
        List.mem_cons, not_or]
      exact ⟨hne, htail⟩

theorem discoverMovies_keys_processed :
    ∀ (processed : List String) (ms : List Movie),
      ∀ it ∈ (discoverMovies processed ms).2,
        it.key ∈ (discoverMovies processed ms).1 := by
  intro processed ms
  induction ms generalizing processed with
  | nil => intro it hit; simp [discoverMovies] at hit
  | cons m rest ih =>
    intro it hit
    by_cases hm : m.key ∈ processed
    · simp only [discoverMovies, if_pos hm] at hit ⊢
      exact ih processed it hit
    · simp only [discoverMovies, if_neg hm, List.mem_cons] at hit ⊢
      rcases hit with heq | hmem
      · subst heq
        exact discoverMovies_processed_mono _ _ _ (by simp)
      · exact ih (m.key :: processed) it hmem

theorem discoverEpisodes_processed_mono (cfg : CoreConfig) (now : Int)
    (k : String) :
    ∀ (processed : List String) (es : List Episode), k ∈ processed →
      k ∈ (discoverEpisodes cfg now processed es).1 := by
  intro processed es
  induction es generalizing processed with
  | nil => intro hk; simpa [discoverEpisodes] using hk
  | cons e rest ih =>
    intro hk
    by_cases he : e.key ∈ processed
    · simpa [discoverEpisodes, he] using ih processed hk
    · cases hd : episodeDecision cfg now e with
      | some tag =>
        simpa [discoverEpisodes, he, hd] using
          ih (e.key :: processed) (by simp [hk])
      | none =>
        simpa [discoverEpisodes, he, hd] using
          ih (e.key :: processed) (by simp [hk])

theorem discoverEpisodes_skips_processed (cfg : CoreConfig) (now : Int)
    (k : String) :
    ∀ (processed : List String) (es : List Episode), k ∈ processed →
      k ∉ keysOf (discoverEpisodes cfg now processed es).2 := by
  intro processed es
  induction es generalizing processed with
  | nil => intro hk; simp [discoverEpisodes, keysOf]
  | cons e rest ih =>
    intro hk
    by_cases he : e.key ∈ processed
    · simpa [discoverEpisodes, he] using ih processed hk
    · have hne : k ≠ e.key := fun h => he (h ▸ hk)
      have htail := ih (e.key :: processed) (by simp [hk])
      cases hd : episodeDecision cfg now e with
      | some tag =>
        simp only [discoverEpisodes, if_neg he, hd, keysOf, List.map_cons,
          List.mem_cons, not_or]
        exact ⟨hne, htail⟩
      | none =>
        simpa [discoverEpisodes, he, hd] using htail

theorem discoverEpisodes_keys_processed (cfg : CoreConfig) (now : Int) :
    ∀ (processed : List String) (es : List Episode),
      ∀ it ∈ (discoverEpisodes cfg now processed es).2,
        it.key ∈ (discoverEpisodes cfg now processed es).1 := by
  intro processed es
  induction es generalizing processed with
  | nil => intro it hit; simp [discoverEpisodes] at hit
  | cons e rest ih =>
    intro it hit
    by_cases he : e.key ∈ processed
    · simp only [discoverEpisodes, if_pos he] at hit ⊢
      exact ih processed it hit
    · cases hd : episodeDecision cfg now e with
      | some tag =>
        simp only [discoverEpisodes, if_neg he, hd, List.mem_cons] at hit ⊢
        rcases hit with heq | hmem
        · subst heq
          exact discoverEpisodes_processed_mono cfg now _ _ _ (by simp)
        · exact ih (e.key :: processed) it hmem
      | none =>
        simp only [discoverEpisodes, if_neg he, hd] at hit ⊢
        exact ih (e.key :: processed) it hit

theorem dispatchLoop_sent_mem (resolve : ChanTag → Bool)
    (sendOk : String → Bool) :
    ∀ (items : List NotifItem),
      ∀ it ∈ (dispatchLoop resolve sendOk items).1, it ∈ items := by
  intro items
  induction items with
  | nil => intro it hit; simp [dispatchLoop] at hit
  | cons a rest ih =>
    intro it hit
    by_cases ha : (resolve a.target && sendOk a.key) = true
    · simp [dispatchLoop, ha] at hit
      rcases hit with heq | hmem
      · simp [heq]
      · exact List.mem_cons_of_mem _ (ih it hmem)
    · simp [dispatchLoop, ha] at hit

theorem scanDiscover_skips_processed (cfg : CoreConfig) (mon2 : CoreMonitor)
    (now : Int) (st : CoreScanState) (k : String) (hk : k ∈ st.processed) :
    k ∉ keysOf (scanDiscover cfg mon2 now st).2 := by
  simp only [scanDiscover]
  intro hmem
  rw [keysOf, List.map_append, List.mem_append] at hmem
  rcases hmem with h1 | h2
  · by_cases hf : cfg.notifyMovies = true
    · rw [if_pos hf] at h1
      exact discoverMovies_skips_processed k st.processed _ hk h1
    · simp [hf, keysOf] at h1
  · by_cases hf : (cfg.notifyNewShows || cfg.notifyRecentEpisodes) = true
    · rw [if_pos hf] at h2
      have hk1 : k ∈ (if cfg.notifyMovies then
          discoverMovies st.processed
            (getRecentlyAddedMovies mon2 st.lastCheckTime 1 now)
        else (st.processed, [])).1 := by
        by_cases hm : cfg.notifyMovies = true
        · rw [if_pos hm]
          exact discoverMovies_processed_mono k st.processed _ hk
        · simpa [hm] using hk
      exact discoverEpisodes_skips_processed cfg now k _ _ hk1 h2
    · simp [hf, keysOf] at h2

theorem scanDiscover_keys_processed (cfg : CoreConfig) (mon2 : CoreMonitor)
    (now : Int) (st : CoreScanState) :
    ∀ it ∈ (scanDiscover cfg mon2 now st).2,
      it.key ∈ (scanDiscover cfg mon2 now st).1 := by
  intro it hit
  simp only [scanDiscover, List.mem_append] at hit ⊢
  rcases hit with h1 | h2
  · have hk1 : it.key ∈ (if cfg.notifyMovies then
        discoverMovies st.processed
          (getRecentlyAddedMovies mon2 st.lastCheckTime 1 now)
      else (st.processed, [])).1 := by
      by_cases hm : cfg.notifyMovies = true
      · rw [if_pos hm] at h1 ⊢
        exact discoverMovies_keys_processed st.processed _ it h1
      · simp [hm] at h1
    by_cases hf : (cfg.notifyNewShows || cfg.notifyRecentEpisodes) = true
    · rw [if_pos hf]
      exact discoverEpisodes_processed_mono cfg now _ _ _ hk1
    · simpa [hf] using hk1
  · by_cases hf : (cfg.notifyNewShows || cfg.notifyRecentEpisodes) = true
    · rw [if_pos hf] at h2 ⊢
      exact discoverEpisodes_keys_processed cfg now _ _ it h2
    · simp [hf] at h2

theorem coreScan_sent_skips_processed (cfg : CoreConfig) (mon : CoreMonitor)
    (resolve : ChanTag → Bool) (sendOk : String → Bool) (now : Int)
    (st : CoreScanState) (k : String) (hk : k ∈ st.processed) :
    k ∉ keysOf (coreCheckForNewMedia cfg mon resolve sendOk now st).sent := by
  simp only [coreCheckForNewMedia]
  set mon2 := if mon.connected then mon
              else { mon with connected := mon.reconnectOk } with hmon2
  by_cases hc : mon2.connected = true
  · rw [if_pos hc]
    by_cases hr : resolve ChanTag.movieCh = true
    · rw [if_pos hr]
      by_cases hdl : (dispatchLoop resolve sendOk
          (scanDiscover cfg mon2 now st).2).2 = true
      · rw [if_pos hdl]
        intro hmem
        rw [keysOf, List.mem_map] at hmem
        rcases hmem with ⟨it, hit, hkey⟩
        have := dispatchLoop_sent_mem resolve sendOk _ it hit
        exact scanDiscover_skips_processed cfg mon2 now st k hk
          (by rw [keysOf, List.mem_map]; exact ⟨it, this, hkey⟩)
      · rw [if_neg hdl]
        intro hmem
        rw [keysOf, List.mem_map] at hmem
        rcases hmem with ⟨it, hit, hkey⟩
        have := dispatchLoop_sent_mem resolve sendOk _ it hit
        exact scanDiscover_skips_processed cfg mon2 now st k hk
          (by rw [keysOf, List.mem_map]; exact ⟨it, this, hkey⟩)
    · rw [if_neg hr]; simp [keysOf]
  · rw [if_neg hc]; simp [keysOf]

theorem coreScan_sent_in_processed (cfg : CoreConfig) (mon : CoreMonitor)
    (resolve : ChanTag → Bool) (sendOk : String → Bool) (now : Int)
    (st : CoreScanState) (k : String)
    (hk : k ∈ keysOf (coreCheckForNewMedia cfg mon resolve sendOk now st).sent) :
    k ∈ (coreCheckForNewMedia cfg mon resolve sendOk now st).state.processed := by
  simp only [coreCheckForNewMedia] at hk ⊢
  set mon2 := if mon.connected then mon
              else { mon with connected := mon.reconnectOk } with hmon2
  by_cases hc : mon2.connected = true
  · rw [if_pos hc] at hk ⊢
    by_cases hr : resolve ChanTag.movieCh = true
    · rw [if_pos hr] at hk ⊢
      by_cases hdl : (dispatchLoop resolve sendOk
          (scanDiscover cfg mon2 now st).2).2 = true
      · rw [if_pos hdl] at hk ⊢
        rw [keysOf, List.mem_map] at hk
        rcases hk with ⟨it, hit, hkey⟩
        have hmem := dispatchLoop_sent_mem resolve sendOk _ it hit
        have := scanDiscover_keys_processed cfg mon2 now st it hmem
        simpa [hkey] using this
      · rw [if_neg hdl] at hk ⊢
        rw [keysOf, List.mem_map] at hk
        rcases hk with ⟨it, hit, hkey⟩
        have hmem := dispatchLoop_sent_mem resolve sendOk _ it hit
        have := scanDiscover_keys_processed cfg mon2 now st it hmem
        simpa [hkey] using this
    · rw [if_neg hr] at hk
      simp [keysOf] at hk
  · rw [if_neg hc] at hk
    simp [keysOf] at hk

/-! ## Claim theorems -/

/-- C10: the packaged duration formatter and the legacy copy compute
identical output for every input, and for every nonnegative millisecond
count the output is the hour count ms / 3600000, then "h ", then the
minute count (ms / 60000) % 60, then "m", the minute count being strictly
below 60. -/
theorem claim_C10_format_duration :
    (∀ ms : Int, format_duration ms = format_duration_legacy ms)
    ∧ ∀ ms : Int, 0 ≤ ms →
        format_duration ms
          = toString (ms / 3600000) ++ "h " ++ toString ((ms / 60000) % 60) ++ "m"
        ∧ (ms / 60000) % 60 < 60 := by
  refine ⟨fun ms => rfl, fun ms hms => ⟨?_, by omega⟩⟩
  have h1 : ms / 1000 / 3600 = ms / 3600000 := by omega
  have h2 : ms / 1000 % 3600 / 60 = (ms / 60000) % 60 := by omega
  simp only [format_duration]
  rw [h1, h2]

/-- C10 witness: the two formatters agree at 8130000 ms and the minute
count there is below 60, by the claim theorem at that input. -/
theorem claim_C10_format_duration_witness :
    format_duration 8130000 = format_duration_legacy 8130000
    ∧ ((8130000 : Int) / 60000) % 60 < 60 :=
  ⟨claim_C10_format_duration.1 8130000,
    (claim_C10_format_duration.2 8130000 (by decide)).2⟩

/-- C3: when the monitor is connected and the search succeeds, each
detector returns exactly the source items whose addedAt is strictly newer
than the cutoff — the checkpoint time when present, otherwise now minus
the lookback window — given that the source list is sorted by addedAt
descending (the walk stops at the first item not newer than the cutoff). -/
theorem claim_C3_cutoff_correctness :
    (∀ (mon : CoreMonitor) (since : Option Int) (days now : Int),
        mon.connected = true → mon.movieSearchOk = true →
        SortedDescMovies mon.movies →
        getRecentlyAddedMovies mon since days now
          = mon.movies.filter
              (fun m => computeCutoff since now days < m.addedAt))
    ∧ (∀ (mon : CoreMonitor) (since : Option Int) (days now : Int),
        mon.connected = true → mon.episodeSearchOk = true →
        SortedDescEpisodes mon.episodes →
        getRecentlyAddedEpisodes mon since days now
          = mon.episodes.filter
              (fun e => computeCutoff since now days < e.addedAt)) := by
  constructor
  · intro mon since days now hc hok hs
    simp [getRecentlyAddedMovies, hc, hok, takeNewerMovies_eq_filter _ _ hs]
  · intro mon since days now hc hok hs
    simp [getRecentlyAddedEpisodes, hc, hok, takeNewerEpisodes_eq_filter _ _ hs]

/-- C6 counterexample: with the monitor still holding a connection handle
but the source unreachable during the search (the detectors return empty
lists instead of raising), the scan does not leave the checkpoint
untouched: it runs to completion and advances last_check_time from 0 to
100, so the next tick does not retry from the same cutoff. -/
theorem claim_C6_counterexample :
    getRecentlyAddedMovies ⟨true, true, false, false, [], []⟩ (some 0) 1 100
      = []
    ∧ getRecentlyAddedEpisodes ⟨true, true, false, false, [], []⟩ (some 0) 1 100
      = []
    ∧ (coreCheckForNewMedia ⟨true, true, true, 30⟩
        ⟨true, true, false, false, [], []⟩
        (fun _ => true) (fun _ => true) 100 ⟨some 0, []⟩).state.lastCheckTime
      = some 100
    ∧ (coreCheckForNewMedia ⟨true, true, true, 30⟩
        ⟨true, true, false, false, [], []⟩
        (fun _ => true) (fun _ => true) 100 ⟨some 0, []⟩).state.lastCheckTime
      ≠ some 0 :=
  ⟨rfl, rfl, rfl, by decide⟩

/-- C6 amended: when the monitor is disconnected and reconnection fails,
the scan aborts with the state — last-scan timestamp and processed set —
untouched and nothing sent, so the next tick retries from the same cutoff;
when instead the source fails during the search, each detector returns an
empty list rather than raising, and the scan runs to completion, advancing
the last-scan timestamp to the current time. -/
theorem claim_C6_source_unavailable :
    (∀ (cfg : CoreConfig) (mon : CoreMonitor) (resolve : ChanTag → Bool)
        (sendOk : String → Bool) (now : Int) (st : CoreScanState),
        mon.connected = false → mon.reconnectOk = false →
        coreCheckForNewMedia cfg mon resolve sendOk now st
          = ⟨st, [], ScanOutcome.notConnected⟩)
    ∧ (∀ (mon : CoreMonitor) (since : Option Int) (days now : Int),
        mon.movieSearchOk = false →
        getRecentlyAddedMovies mon since days now = [])
    ∧ (∀ (mon : CoreMonitor) (since : Option Int) (days now : Int),
        mon.episodeSearchOk = false →
        getRecentlyAddedEpisodes mon since days now = [])
    ∧ (∀ (cfg : CoreConfig) (mon : CoreMonitor) (resolve : ChanTag → Bool)
        (sendOk : String → Bool) (now : Int) (st : CoreScanState),
        mon.connected = true → resolve ChanTag.movieCh = true →
        mon.movieSearchOk = false → mon.episodeSearchOk = false →
        (coreCheckForNewMedia cfg mon resolve sendOk now st).state.lastCheckTime
          = some now) := by
  refine ⟨?_, ?_, ?_, ?_⟩
  · intro cfg mon resolve sendOk now st hconn hrec
    simp [coreCheckForNewMedia, hconn, hrec]
  · intro mon since days now h
    cases hc : mon.connected <;> simp [getRecentlyAddedMovies, h, hc]
  · intro mon since days now h
    cases hc : mon.connected <;> simp [getRecentlyAddedEpisodes, h, hc]
  · intro cfg mon resolve sendOk now st hconn hres hm he
    simp [coreCheckForNewMedia, hconn, hres, scanDiscover,
      getRecentlyAddedMovies, getRecentlyAddedEpisodes, hm, he,
      discoverMovies, discoverEpisodes, dispatchLoop, ite_self]

/-- C6 witness: the amended theorem applied to a disconnected monitor
whose reconnect fails, and to a connected monitor whose searches fail. -/
theorem claim_C6_source_unavailable_witness :
    coreCheckForNewMedia ⟨true, true, true, 30⟩
        ⟨false, false, true, true, [], []⟩
        (fun _ => true) (fun _ => true) 100 ⟨some 7, ["k"]⟩
      = ⟨⟨some 7, ["k"]⟩, [], ScanOutcome.notConnected⟩
    ∧ getRecentlyAddedMovies ⟨true, true, false, true, [], []⟩ none 1 100 = []
    ∧ (coreCheckForNewMedia ⟨true, true, true, 30⟩
        ⟨true, true, false, false, [], []⟩
        (fun _ => true) (fun _ => true) 250 ⟨some 7, []⟩).state.lastCheckTime
      = some 250 :=
  ⟨claim_C6_source_unavailable.1 _ _ _ _ 100 _ rfl rfl,
   claim_C6_source_unavailable.2.1 _ none 1 100 rfl,
   claim_C6_source_unavailable.2.2.2 _ _ _ _ 250 _ rfl rfl rfl rfl⟩

/-- C8 counterexample: the first new_items entry targets the unresolved
new-shows channel, so its send raises; the scan stops there — the second
event, whose recent-episodes channel resolves fine, is never dispatched
(sent stays empty), contradicting the claim that the other events of the
scan continue. -/
theorem claim_C8_counterexample :
    (coreCheckForNewMedia ⟨true, true, true, 30⟩
        ⟨true, true, true, true, [],
          [⟨"e1", "A", 1, 1, none, 50⟩, ⟨"e2", "B", 3, 5, some 90, 40⟩]⟩
        (fun t => match t with | ChanTag.newShowsCh => false | _ => true)
        (fun _ => true) 100 ⟨some 0, []⟩).sent = []
    ∧ "e2" ∉ keysOf (coreCheckForNewMedia ⟨true, true, true, 30⟩
        ⟨true, true, true, true, [],
          [⟨"e1", "A", 1, 1, none, 50⟩, ⟨"e2", "B", 3, 5, some 90, 40⟩]⟩
        (fun t => match t with | ChanTag.newShowsCh => false | _ => true)
        (fun _ => true) 100 ⟨some 0, []⟩).sent
    ∧ (coreCheckForNewMedia ⟨true, true, true, 30⟩
        ⟨true, true, true, true, [],
          [⟨"e1", "A", 1, 1, none, 50⟩, ⟨"e2", "B", 3, 5, some 90, 40⟩]⟩
        (fun t => match t with | ChanTag.newShowsCh => false | _ => true)
        (fun _ => true) 100 ⟨some 0, []⟩).outcome
      = ScanOutcome.dispatchError :=
  ⟨rfl, by decide, rfl⟩

/-- C8 amended: an unresolvable movie channel aborts the whole scan up
front with nothing sent and the state untouched; an unresolvable channel
on a dispatched event stops the dispatch loop at that event, so only the
events before it are sent; and a scan that ends in a dispatch error does
not update the last-scan timestamp. -/
theorem claim_C8_channel_missing :
    (∀ (cfg : CoreConfig) (mon : CoreMonitor) (resolve : ChanTag → Bool)
        (sendOk : String → Bool) (now : Int) (st : CoreScanState),
        mon.connected = true → resolve ChanTag.movieCh = false →
        coreCheckForNewMedia cfg mon resolve sendOk now st
          = ⟨st, [], ScanOutcome.movieChannelMissing⟩)
    ∧ (∀ (resolve : ChanTag → Bool) (sendOk : String → Bool)
        (l1 l2 : List NotifItem) (it : NotifItem),
        (∀ j ∈ l1, (resolve j.target && sendOk j.key) = true) →
        resolve it.target = false →
        dispatchLoop resolve sendOk (l1 ++ it :: l2) = (l1, false))
    ∧ (∀ (cfg : CoreConfig) (mon : CoreMonitor) (resolve : ChanTag → Bool)
        (sendOk : String → Bool) (now : Int) (st : CoreScanState),
        (coreCheckForNewMedia cfg mon resolve sendOk now st).outcome
            = ScanOutcome.dispatchError →
        (coreCheckForNewMedia cfg mon resolve sendOk now st).state.lastCheckTime
          = st.lastCheckTime) := by
  refine ⟨?_, ?_, ?_⟩
  · intro cfg mon resolve sendOk now st hconn hres
    simp [coreCheckForNewMedia, hconn, hres]
  · intro resolve sendOk l1
    induction l1 with
    | nil =>
      intro l2 it hall hit
      simp [dispatchLoop, hit]
    | cons a rest ih =>
      intro l2 it hall hit
      have ha := hall a (by simp)
      have := ih l2 it (fun j hj => hall j (by simp [hj])) hit
      simp [dispatchLoop, ha, this]
  · intro cfg mon resolve sendOk now st h
    simp only [coreCheckForNewMedia] at h ⊢
    set mon2 := if mon.connected then mon
                else { mon with connected := mon.reconnectOk } with hmon2
    by_cases hc : mon2.connected = true
    · rw [if_pos hc] at h ⊢
      by_cases hr : resolve ChanTag.movieCh = true
      · rw [if_pos hr] at h ⊢
        by_cases hdl : (dispatchLoop resolve sendOk
            (scanDiscover cfg mon2 now st).2).2 = true
        · rw [if_pos hdl] at h
          simp at h
        · rw [if_neg hdl]
      · rw [if_neg hr] at h
        simp at h
    · rw [if_neg hc] at h
      simp at h

/-- C8 witness: the amended theorem applied at concrete inputs — a missing
movie channel aborts the scan, a dispatch list whose second entry has an
unresolvable channel stops after the first entry, and the dispatch-error
scan of the counterexample input keeps its old timestamp. -/
theorem claim_C8_channel_missing_witness :
    coreCheckForNewMedia ⟨true, true, true, 30⟩
        ⟨true, true, true, true, [⟨"m1", "A", 50⟩], []⟩
        (fun _ => false) (fun _ => true) 100 ⟨some 0, ["k"]⟩
      = ⟨⟨some 0, ["k"]⟩, [], ScanOutcome.movieChannelMissing⟩
    ∧ dispatchLoop
        (fun t => match t with | ChanTag.newShowsCh => false | _ => true)
        (fun _ => true)
        [⟨"a", ItemKind.movie, ChanTag.movieCh⟩,
          ⟨"b", ItemKind.episode, ChanTag.newShowsCh⟩,
          ⟨"c", ItemKind.episode, ChanTag.recentCh⟩]
      = ([⟨"a", ItemKind.movie, ChanTag.movieCh⟩], false)
    ∧ (coreCheckForNewMedia ⟨true, true, true, 30⟩
        ⟨true, true, true, true, [],
          [⟨"e1", "A", 1, 1, none, 50⟩, ⟨"e2", "B", 3, 5, some 90, 40⟩]⟩
        (fun t => match t with | ChanTag.newShowsCh => false | _ => true)
        (fun _ => true) 100 ⟨some 0, []⟩).state.lastCheckTime = some 0 :=
  ⟨claim_C8_channel_missing.1 _ _ _ _ 100 _ rfl rfl,
   claim_C8_channel_missing.2.1 _ _
     [⟨"a", ItemKind.movie, ChanTag.movieCh⟩]
     [⟨"c", ItemKind.episode, ChanTag.recentCh⟩]
     ⟨"b", ItemKind.episode, ChanTag.newShowsCh⟩ (by decide) rfl,
   claim_C8_channel_missing.2.2 _ _ _ _ 100 _ (by decide)⟩

theorem pmConnectAux_attempts_le (outcome : Nat → ConnectOutcome) :
    ∀ (fuel calls : Nat) (waits : List Nat),
      (pmConnectAux outcome fuel calls waits).attempts ≤ calls + fuel := by
  intro fuel
  induction fuel with
  | zero => intro calls waits; simp [pmConnectAux]
  | succ n ih =>
    intro calls waits
    simp only [pmConnectAux]
    cases outcome calls with
    | success => simp
    | unauthorized => simp
    | transientError =>
      by_cases h : 0 < n
      · simp only [if_pos h]
        have := ih (calls + 1) (waits ++ [5])
        omega
      · simp only [if_neg h]; omega
    | otherError =>
      by_cases h : 0 < n
      · simp only [if_pos h]
        have := ih (calls + 1) (waits ++ [5])
        omega
      · simp only [if_neg h]; omega

theorem pmConnectAux_ok_false (outcome : Nat → ConnectOutcome)
    (hall : ∀ n, outcome n = ConnectOutcome.transientError) :
    ∀ (fuel calls : Nat) (waits : List Nat),
      (pmConnectAux outcome fuel calls waits).ok = false := by
  intro fuel
  induction fuel with
  | zero => intro calls waits; simp [pmConnectAux]
  | succ n ih =>
    intro calls waits
    simp only [pmConnectAux, hall calls]
    by_cases h : 0 < n
    · simp only [if_pos h]; exact ih (calls + 1) (waits ++ [5])
    · simp only [if_neg h]

theorem pmConnectAux_waits_five (outcome : Nat → ConnectOutcome) :
    ∀ (fuel calls : Nat) (waits : List Nat),
      (∀ w ∈ waits, w = 5) →
      ∀ w ∈ (pmConnectAux outcome fuel calls waits).waits, w = 5 := by
  intro fuel
  induction fuel with
  | zero => intro calls waits hw; simpa [pmConnectAux] using hw
  | succ n ih =>
    intro calls waits hw
    simp only [pmConnectAux]
    cases outcome calls with
    | success => simpa using hw
    | unauthorized => simpa using hw
    | transientError =>
      by_cases h : 0 < n
      · simp only [if_pos h]
        refine ih (calls + 1) (waits ++ [5]) ?_
        intro w hmem
        rcases List.mem_append.mp hmem with hl | hr
        · exact hw w hl
        · simpa using hr
      · simp only [if_neg h]; simpa using hw
    | otherError =>
      by_cases h : 0 < n
      · simp only [if_pos h]
        refine ih (calls + 1) (waits ++ [5]) ?_
        intro w hmem
        rcases List.mem_append.mp hmem with hl | hr
        · exact hw w hl
        · simpa using hr
      · simp only [if_neg h]; simpa using hw

theorem legacyConnectAux_attempts_le (outcome : Nat → ConnectOutcome) :
    ∀ (fuel calls : Nat) (waits : List Nat),
      (legacyConnectAux outcome fuel calls waits).attempts ≤ calls + fuel := by
  intro fuel
  induction fuel with
  | zero => intro calls waits; simp [legacyConnectAux]
  | succ n ih =>
    intro calls waits
    simp only [legacyConnectAux]
    cases outcome calls with
    | success => simp
    | unauthorized => simp
    | otherError => simp
    | transientError =>
      by_cases h : 0 < n
      · simp only [if_pos h]
        have := ih (calls + 1) (waits ++ [2 ^ (calls + 1)])
        omega
      · simp only [if_neg h]; omega

/-- Adjacent waits grow strictly — the minimal consequence of an
exponential backoff schedule, used to state C9. -/
def growingWaits : List Nat → Bool
  | [] => true
  | [_] => true
  | a :: b :: rest => decide (a < b) && growingWaits (b :: rest)

/-- C9 counterexample: the packaged PlexMonitor.connect, facing three
transient connection failures with the default retry count 3, sleeps a
fixed 5 seconds between attempts — the wait sequence [5, 5] does not grow
at all, so the claimed exponential backoff does not hold for this
implementation. -/
theorem claim_C9_backoff_counterexample :
    pmConnect (fun _ => ConnectOutcome.transientError) 3
      = ⟨false, 3, [5, 5]⟩
    ∧ growingWaits
        (pmConnect (fun _ => ConnectOutcome.transientError) 3).waits
        = false :=
  ⟨rfl, rfl⟩

/-- C9 amended: every sequence of connection failures makes at most the
configured maximum number of attempts and ends with connect returning
false, in both implementations; between attempts the packaged monitor
waits a fixed 5 seconds, while only the legacy module backs off
exponentially (2, 4 seconds for the default maximum of 3). -/
theorem claim_C9_connect_bound :
    (∀ (outcome : Nat → ConnectOutcome) (retry : Nat),
        (pmConnect outcome retry).attempts ≤ retry)
    ∧ (∀ (outcome : Nat → ConnectOutcome) (retry : Nat),
        (∀ n, outcome n = ConnectOutcome.transientError) →
        (pmConnect outcome retry).ok = false)
    ∧ (∀ (outcome : Nat → ConnectOutcome) (retry : Nat),
        ∀ w ∈ (pmConnect outcome retry).waits, w = 5)
    ∧ (∀ (outcome : Nat → ConnectOutcome) (retry : Nat),
        (legacyConnect outcome retry).attempts ≤ retry)
    ∧ (∀ outcome : Nat → ConnectOutcome,
        (∀ n, outcome n = ConnectOutcome.transientError) →
        legacyConnect outcome 3 = ⟨false, 3, [2, 4]⟩) := by
  refine ⟨?_, ?_, ?_, ?_, ?_⟩
  · intro outcome retry
    simpa using pmConnectAux_attempts_le outcome retry 0 []
  · intro outcome retry hall
    exact pmConnectAux_ok_false outcome hall retry 0 []
  · intro outcome retry
    exact pmConnectAux_waits_five outcome retry 0 [] (by simp)
  · intro outcome retry
    simpa using legacyConnectAux_attempts_le outcome retry 0 []
  · intro outcome hall
    simp [legacyConnect, legacyConnectAux, hall 0, hall 1, hall 2]

/-- C9 witness: the amended theorem at the concrete all-transient outcome
and the default retry count 3. -/
theorem claim_C9_connect_bound_witness :
    (pmConnect (fun _ => ConnectOutcome.transientError) 3).attempts ≤ 3
    ∧ (pmConnect (fun _ => ConnectOutcome.transientError) 3).ok = false
    ∧ legacyConnect (fun _ => ConnectOutcome.transientError) 3
        = ⟨false, 3, [2, 4]⟩ :=
  ⟨claim_C9_connect_bound.1 _ 3,
    claim_C9_connect_bound.2.1 _ 3 (fun _ => rfl),
    claim_C9_connect_bound.2.2.2.2 _ (fun _ => rfl)⟩

/-- C1: an item whose identifier is already in processed_media is skipped
by the scan and produces no notification, and a second run of the same
scan against an unchanged source never sends a notification for an
identifier the first run sent. -/
theorem claim_C1_idempotence (cfg : CoreConfig) (mon : CoreMonitor)
    (resolve : ChanTag → Bool) (sendOk : String → Bool) (now : Int)
    (st : CoreScanState) (k : String) :
    (k ∈ st.processed →
      k ∉ keysOf (coreCheckForNewMedia cfg mon resolve sendOk now st).sent)
    ∧ ∀ (sendOk2 : String → Bool) (now2 : Int),
        k ∈ keysOf (coreCheckForNewMedia cfg mon resolve sendOk now st).sent →
        k ∉ keysOf (coreCheckForNewMedia cfg mon resolve sendOk2 now2
            (coreCheckForNewMedia cfg mon resolve sendOk now st).state).sent := by
  constructor
  · intro hk
    exact coreScan_sent_skips_processed cfg mon resolve sendOk now st k hk
  · intro sendOk2 now2 hk
    have hmem := coreScan_sent_in_processed cfg mon resolve sendOk now st k hk
    exact coreScan_sent_skips_processed cfg mon resolve sendOk2 now2 _ k hmem

/-- C1 witness: with one fresh movie m1 and the key x already announced,
the scan sends m1 and nothing for x, and an identical second scan sends
nothing for m1, by the claim theorem at this input. -/
theorem claim_C1_idempotence_witness :
    ("x" ∉ keysOf (coreCheckForNewMedia ⟨true, true, true, 30⟩
        ⟨true, true, true, true, [⟨"m1", "A", 50⟩], []⟩
        (fun _ => true) (fun _ => true) 100 ⟨some 0, ["x"]⟩).sent)
    ∧ "m1" ∈ keysOf (coreCheckForNewMedia ⟨true, true, true, 30⟩
        ⟨true, true, true, true, [⟨"m1", "A", 50⟩], []⟩
        (fun _ => true) (fun _ => true) 100 ⟨some 0, ["x"]⟩).sent
    ∧ "m1" ∉ keysOf (coreCheckForNewMedia ⟨true, true, true, 30⟩
        ⟨true, true, true, true, [⟨"m1", "A", 50⟩], []⟩
        (fun _ => true) (fun _ => true) 200
        (coreCheckForNewMedia ⟨true, true, true, 30⟩
          ⟨true, true, true, true, [⟨"m1", "A", 50⟩], []⟩
          (fun _ => true) (fun _ => true) 100 ⟨some 0, ["x"]⟩).state).sent :=
  ⟨(claim_C1_idempotence ⟨true, true, true, 30⟩
      ⟨true, true, true, true, [⟨"m1", "A", 50⟩], []⟩
      (fun _ => true) (fun _ => true) 100 ⟨some 0, ["x"]⟩ "x").1 (by decide),
   by decide,
   (claim_C1_idempotence ⟨true, true, true, 30⟩
      ⟨true, true, true, true, [⟨"m1", "A", 50⟩], []⟩
      (fun _ => true) (fun _ => true) 100 ⟨some 0, ["x"]⟩ "m1").2
     (fun _ => true) 200 (by decide)⟩

/-- C7: with new-show notifications enabled (the constructor default), an
episode with season 1 and episode 1 is classified as a series premiere and
targeted at the new-shows channel, whatever its air date — the premiere
branch is tested before the recently-aired branch, so it wins whenever
both would hold. -/
theorem claim_C7_premiere_precedence (cfg : CoreConfig) (now : Int)
    (ep : Episode) (hflag : cfg.notifyNewShows = true)
    (hs : ep.seasonNumber = 1) (he : ep.episodeNumber = 1) :
    episodeDecision cfg now ep = some ChanTag.newShowsCh := by
  simp [episodeDecision, hflag, hs, he]

/-- C7 witness: a season-1-episode-1 episode whose air date lies 400 days
in the past fails the 30-day recent window yet is still classified to the
new-shows channel, by the claim theorem at this input. -/
theorem claim_C7_premiere_precedence_witness :
    recentlyAired ⟨true, true, true, 30⟩ 1700000000
        ⟨"e1", "S", 1, 1, some 1665440000, 1700000000⟩ = false
    ∧ episodeDecision ⟨true, true, true, 30⟩ 1700000000
        ⟨"e1", "S", 1, 1, some 1665440000, 1700000000⟩
      = some ChanTag.newShowsCh :=
  ⟨by decide,
   claim_C7_premiere_precedence ⟨true, true, true, 30⟩ 1700000000
     ⟨"e1", "S", 1, 1, some 1665440000, 1700000000⟩ rfl rfl rfl⟩

/-- C2 counterexample: one fresh episode without an air date (the only
kind the legacy TV scan survives — air-dated episodes raise at line 447),
buffered via the first-episode query, whose only dispatch fails: the scan
completes without raising and still writes the key to the durable
processed record (the Mark as processed regardless line plus the
unconditional end-of-scan save), so a failed dispatch does not leave the
identifier absent and the episode is not re-offered by the announced-set
check on the next scan. -/
theorem claim_C2_counterexample :
    (legacyCheckTV (fun _ _ => true) (fun _ => false) 1000000 7200
        [] [] [⟨"e1", "S", 1, 1, none, 999000⟩]).raised = false
    ∧ dispatchesOf (legacyCheckTV (fun _ _ => true) (fun _ => false) 1000000
        7200 [] [] [⟨"e1", "S", 1, 1, none, 999000⟩]).trace
      = [("S", [⟨"e1", "S", 1, 1, none, 999000⟩], false)]
    ∧ "e1" ∈ durableProcessedAfter []
        (legacyCheckTV (fun _ _ => true) (fun _ => false) 1000000 7200
          [] [] [⟨"e1", "S", 1, 1, none, 999000⟩]).trace :=
  ⟨rfl, rfl, by decide⟩

/-- C2 amended: the durable processed-set write is the single final event
of a legacy TV scan that completes, so any abort strictly before the end
of the scan — including the TypeError raised at discovery of a fresh
air-dated episode or at flush of a buffered one — leaves the durable
announced record exactly as it was, and a not-yet-announced episode is
re-offered on restart; the write is however not coupled to dispatch
success: a completing scan persists the key of every episode it visited,
failed dispatches included. -/
theorem claim_C2_checkpoint (isFirstShow : String → List String → Bool)
    (sendOk : String → Bool) (now bufferTime : Int) (processed0 : List String)
    (buffer0 : List (String × BufEntry)) (episodes : List Episode) :
    (∀ k : Nat,
        k < (legacyCheckTV isFirstShow sendOk now bufferTime processed0
              buffer0 episodes).trace.length →
        durableProcessedAfter processed0
            ((legacyCheckTV isFirstShow sendOk now bufferTime processed0
              buffer0 episodes).trace.take k)
          = processed0)
    ∧ ((legacyCheckTV isFirstShow sendOk now bufferTime processed0 buffer0
          episodes).raised = true →
        durableProcessedAfter processed0
            (legacyCheckTV isFirstShow sendOk now bufferTime processed0
              buffer0 episodes).trace
          = processed0)
    ∧ ((legacyCheckTV isFirstShow sendOk now bufferTime processed0 buffer0
          episodes).raised = false →
        (legacyCheckTV isFirstShow sendOk now bufferTime processed0 buffer0
            episodes).trace.getLast?
          = some (LegacyEvent.saveProcessed
              (legacyCheckTV isFirstShow sendOk now bufferTime processed0
                buffer0 episodes).processed))
    ∧ ((legacyCheckTV isFirstShow sendOk now bufferTime processed0 buffer0
          episodes).raised = false →
        ∀ e ∈ episodes,
          e.key ∈ (legacyCheckTV isFirstShow sendOk now bufferTime processed0
            buffer0 episodes).processed) := by
  refine ⟨?_, ?_, ?_, ?_⟩
  · intro k hk
    by_cases hr : (legacyCheckTV isFirstShow sendOk now bufferTime processed0
        buffer0 episodes).raised = true
    · exact durableProcessedAfter_no_write processed0 _
        fun ks hm => legacyCheckTV_raised_no_write isFirstShow sendOk now
          bufferTime processed0 buffer0 episodes hr ks
          (List.take_subset _ _ hm)
    · rw [Bool.not_eq_true] at hr
      rcases legacyCheckTV_trace isFirstShow sendOk now bufferTime processed0
        buffer0 episodes hr with ⟨pre, htr, hpre⟩
      rw [htr] at hk ⊢
      rw [List.length_append, List.length_singleton] at hk
      rw [List.take_append_of_le_length (by omega)]
      exact durableProcessedAfter_no_write processed0 _
        fun ks hm => hpre ks (List.take_subset _ _ hm)
  · intro hr
    exact durableProcessedAfter_no_write processed0 _
      (legacyCheckTV_raised_no_write isFirstShow sendOk now bufferTime
        processed0 buffer0 episodes hr)
  · intro hr
    rcases legacyCheckTV_trace isFirstShow sendOk now bufferTime processed0
      buffer0 episodes hr with ⟨pre, htr, hpre⟩
    rw [htr]
    exact List.getLast?_concat _
  · intro hr e he
    rw [legacyCheckTV_processed]
    exact legacyDiscover_covers isFirstShow now episodes processed0 buffer0 []
      (legacyCheckTV_discover_ok isFirstShow sendOk now bufferTime processed0
        buffer0 episodes hr) e he

/-- C2 witness: the claim theorem applied to the one-episode scan whose
send fails — the durable record is unchanged after any strict prefix of
the trace (here the prefix of length 2, past the failed dispatch), an
aborted scan over an air-dated episode writes nothing to the record, and
the completing scan ends with the episode key in the processed set. -/
theorem claim_C2_checkpoint_witness :
    durableProcessedAfter []
        ((legacyCheckTV (fun _ _ => true) (fun _ => false) 1000000 7200
          [] [] [⟨"e1", "S", 1, 1, none, 999000⟩]).trace.take 2)
      = []
    ∧ durableProcessedAfter []
        (legacyCheckTV (fun _ _ => true) (fun _ => false) 1000000 7200
          [] [] [⟨"e2", "S", 1, 1, some 5, 999000⟩]).trace
      = []
    ∧ "e1" ∈ (legacyCheckTV (fun _ _ => true) (fun _ => false) 1000000 7200
        [] [] [⟨"e1", "S", 1, 1, none, 999000⟩]).processed :=
  ⟨(claim_C2_checkpoint (fun _ _ => true) (fun _ => false) 1000000 7200
      [] [] [⟨"e1", "S", 1, 1, none, 999000⟩]).1 2 (by decide),
   (claim_C2_checkpoint (fun _ _ => true) (fun _ => false) 1000000 7200
      [] [] [⟨"e2", "S", 1, 1, some 5, 999000⟩]).2.1 rfl,
   (claim_C2_checkpoint (fun _ _ => true) (fun _ => false) 1000000 7200
      [] [] [⟨"e1", "S", 1, 1, none, 999000⟩]).2.2.2 rfl
     ⟨"e1", "S", 1, 1, none, 999000⟩ (by decide)⟩

/-- Presentation order claimed by the spec: episodes listed by
(season, episode) ascending. -/
def sortedBySeasonEpisode : List Episode → Bool
  | [] => true
  | [_] => true
  | a :: b :: rest =>
    (decide (a.seasonNumber < b.seasonNumber)
      || (decide (a.seasonNumber = b.seasonNumber)
          && decide (a.episodeNumber ≤ b.episodeNumber)))
    && sortedBySeasonEpisode (b :: rest)

/-- C4 counterexample: three same-show episodes without air dates (the
only kind the legacy TV scan survives), each accepted by the
first-episode-of-show query, discovered in the order S01E02, S01E01,
S01E03, flush as one grouped event — but the flushed list keeps discovery
order and is not sorted by (season, episode) ascending; the legacy code
never sorts the buffered episodes. -/
theorem claim_C4_counterexample :
    dispatchesOf (legacyCheckTV (fun _ _ => true) (fun _ => true) 1000000 7200
        [] []
        [⟨"b", "S", 1, 2, none, 999000⟩,
          ⟨"a", "S", 1, 1, none, 998000⟩,
          ⟨"c", "S", 1, 3, none, 997000⟩]).trace
      = [("S",
          [⟨"b", "S", 1, 2, none, 999000⟩,
            ⟨"a", "S", 1, 1, none, 998000⟩,
            ⟨"c", "S", 1, 3, none, 997000⟩], true)]
    ∧ sortedBySeasonEpisode
        [⟨"b", "S", 1, 2, none, 999000⟩,
          ⟨"a", "S", 1, 1, none, 998000⟩,
          ⟨"c", "S", 1, 3, none, 997000⟩] = false :=
  ⟨rfl, rfl⟩

/-- C4 amended: three fresh same-show episodes without air dates (an
air-dated episode makes the scan raise at line 447 instead), each accepted
by the first-episode-of-show query as the processed set stands at its
turn, flush as exactly one grouped event containing all three, in
discovery order (the code performs no (season, episode) sort); the
completing flush empties the buffer. -/
theorem claim_C4_grouping (isFirstShow : String → List String → Bool)
    (sendOk : String → Bool) (now bufferTime : Int) (p0 : List String)
    (e1 e2 e3 : Episode) (s : String)
    (hs1 : e1.showTitle = s) (hs2 : e2.showTitle = s) (hs3 : e3.showTitle = s)
    (hk1 : e1.key ∉ p0) (hk2 : e2.key ∉ p0) (hk3 : e3.key ∉ p0)
    (hne12 : e1.key ≠ e2.key) (hne13 : e1.key ≠ e3.key)
    (hne23 : e2.key ≠ e3.key)
    (ha1 : e1.airDate = none) (ha2 : e2.airDate = none)
    (ha3 : e3.airDate = none)
    (hf1 : isFirstShow s p0 = true)
    (hf2 : isFirstShow s (e1.key :: p0) = true)
    (hf3 : isFirstShow s (e2.key :: e1.key :: p0) = true)
    (hsend : sendOk s = true) :
    (legacyCheckTV isFirstShow sendOk now bufferTime p0 []
        [e1, e2, e3]).raised = false
    ∧ dispatchesOf (legacyCheckTV isFirstShow sendOk now bufferTime p0 []
        [e1, e2, e3]).trace
      = [(s, [e1, e2, e3], true)]
    ∧ (legacyCheckTV isFirstShow sendOk now bufferTime p0 []
        [e1, e2, e3]).buffer = [] := by
  refine ⟨?_, ?_, ?_⟩ <;>
    simp [legacyCheckTV, legacyDiscover, bufferAdd, showsToSend, legacyFlush,
      lookupBuf, removeBuf, dispatchesOf, bufferSnapshot,
      hs1, hs2, hs3, hk1, hk2, hk3, ha1, ha2, ha3, hf1, hf2, hf3, hsend,
      Ne.symm hne12, Ne.symm hne13, Ne.symm hne23]

/-- C4 witness: the amended theorem at a concrete input — air-date-less
episodes discovered in the order S01E02, S01E01, S01E03 with an accepting
first-episode query and a succeeding send flush as one grouped dispatch
in that discovery order. -/
theorem claim_C4_grouping_witness :
    dispatchesOf (legacyCheckTV (fun _ _ => true) (fun _ => true) 1000000
        86400 ["old"] []
        [⟨"x2", "T", 1, 2, none, 999000⟩,
          ⟨"x1", "T", 1, 1, none, 998000⟩,
          ⟨"x3", "T", 1, 3, none, 997000⟩]).trace
      = [("T",
          [⟨"x2", "T", 1, 2, none, 999000⟩,
            ⟨"x1", "T", 1, 1, none, 998000⟩,
            ⟨"x3", "T", 1, 3, none, 997000⟩], true)]
    ∧ (legacyCheckTV (fun _ _ => true) (fun _ => true) 1000000 86400 ["old"]
        []
        [⟨"x2", "T", 1, 2, none, 999000⟩,
          ⟨"x1", "T", 1, 1, none, 998000⟩,
          ⟨"x3", "T", 1, 3, none, 997000⟩]).buffer = [] :=
  ⟨(claim_C4_grouping (fun _ _ => true) (fun _ => true) 1000000 86400 ["old"]
      ⟨"x2", "T", 1, 2, none, 999000⟩
      ⟨"x1", "T", 1, 1, none, 998000⟩
      ⟨"x3", "T", 1, 3, none, 997000⟩ "T"
      rfl rfl rfl (by decide) (by decide) (by decide)
      (by decide) (by decide) (by decide)
      rfl rfl rfl rfl rfl rfl rfl).2.1,
   (claim_C4_grouping (fun _ _ => true) (fun _ => true) 1000000 86400 ["old"]
      ⟨"x2", "T", 1, 2, none, 999000⟩
      ⟨"x1", "T", 1, 1, none, 998000⟩
      ⟨"x3", "T", 1, 3, none, 997000⟩ "T"
      rfl rfl rfl (by decide) (by decide) (by decide)
      (by decide) (by decide) (by decide)
      rfl rfl rfl rfl rfl rfl rfl).2.2⟩

/-- C5 counterexample: a movie whose first send attempt fails while a
second attempt would succeed — the legacy dispatcher makes exactly one
send call for it, so no retry, no backoff and no third attempt to exhaust
ever happen; there is also no transient_error result in the code, only a
logged exception. -/
theorem claim_C5_counterexample :
    (legacyCheckMovies (fun _ n => decide (1 ≤ n))
        [⟨"m1", "A", 50⟩] []).sendCalls = [("m1", 0)]
    ∧ ¬ 2 ≤ (legacyCheckMovies (fun _ n => decide (1 ≤ n))
        [⟨"m1", "A", 50⟩] []).sendCalls.length
    ∧ (legacyCheckMovies (fun _ n => decide (1 ≤ n))
        [⟨"m1", "A", 50⟩] []).sent = [] :=
  ⟨rfl, by decide, rfl⟩

/-- C5 amended: a transiently failing send is attempted exactly once per
scan — no retry and no backoff; the failure leaves the movie identifier
un-announced with no durable write, the next scan re-offers the movie
(its send is attempted again), and a send that then succeeds is
immediately coupled with a durable processed-set write. -/
theorem claim_C5_single_attempt (sendOk sendOk2 : String → Nat → Bool)
    (m : Movie) (p0 : List String)
    (hfresh : m.key ∉ p0) (hfail : sendOk m.key 0 = false) :
    (legacyCheckMovies sendOk [m] p0).sendCalls = [(m.key, 0)]
    ∧ (legacyCheckMovies sendOk [m] p0).sent = []
    ∧ m.key ∉ (legacyCheckMovies sendOk [m] p0).processed
    ∧ (legacyCheckMovies sendOk [m] p0).trace = []
    ∧ (legacyCheckMovies sendOk2 [m]
        (legacyCheckMovies sendOk [m] p0).processed).sendCalls
      = [(m.key, 0)]
    ∧ (sendOk2 m.key 0 = true →
        (legacyCheckMovies sendOk2 [m]
          (legacyCheckMovies sendOk [m] p0).processed).trace
          = [LegacyEvent.saveProcessed (m.key :: p0)]) := by
  have h1 : legacyCheckMovies sendOk [m] p0 = ⟨p0, [(m.key, 0)], [], []⟩ := by
    simp [legacyCheckMovies, hfresh, hfail]
  refine ⟨by rw [h1], by rw [h1], by rw [h1]; exact hfresh, by rw [h1], ?_, ?_⟩
  · rw [h1]
    by_cases h2 : sendOk2 m.key 0 = true
    · simp [legacyCheckMovies, hfresh, h2]
    · simp [legacyCheckMovies, hfresh, h2]
  · intro h2
    rw [h1]
    simp [legacyCheckMovies, hfresh, h2]

/-- C5 witness: the amended theorem at a concrete movie whose send always
fails in the first scan and succeeds in the second. -/
theorem claim_C5_single_attempt_witness :
    (legacyCheckMovies (fun _ _ => false) [⟨"m2", "B", 7⟩] ["z"]).sendCalls
      = [("m2", 0)]
    ∧ (legacyCheckMovies (fun _ _ => false) [⟨"m2", "B", 7⟩] ["z"]).sent = []
    ∧ (legacyCheckMovies (fun _ _ => true) [⟨"m2", "B", 7⟩]
        (legacyCheckMovies (fun _ _ => false) [⟨"m2", "B", 7⟩] ["z"]).processed).trace
      = [LegacyEvent.saveProcessed ["m2", "z"]] :=
  ⟨(claim_C5_single_attempt (fun _ _ => false) (fun _ _ => true)
      ⟨"m2", "B", 7⟩ ["z"] (by decide) rfl).1,
   (claim_C5_single_attempt (fun _ _ => false) (fun _ _ => true)
      ⟨"m2", "B", 7⟩ ["z"] (by decide) rfl).2.1,
   (claim_C5_single_attempt (fun _ _ => false) (fun _ _ => true)
      ⟨"m2", "B", 7⟩ ["z"] (by decide) rfl).2.2.2.2.2 rfl⟩

/-- C3 witness: a source of three movies added at t-1h, t-1d and t-3d (in
descending order, t = 1000000) with checkpoint t-2d yields exactly the
items at t-1h and t-1d, by the claim theorem at that input. -/
theorem claim_C3_cutoff_correctness_witness :
    getRecentlyAddedMovies
        ⟨true, true, true, true,
          [⟨"m1", "A", 996400⟩, ⟨"m2", "B", 913600⟩, ⟨"m3", "C", 740800⟩], []⟩
        (some 827200) 1 1000000
      = [⟨"m1", "A", 996400⟩, ⟨"m2", "B", 913600⟩] := by
  rw [claim_C3_cutoff_correctness.1 _ _ _ _ rfl rfl (by decide)]
  decide

end PlexAnnouncer
